import Mathlib

/-!
Verification of the lucida-downloader download orchestration engine.

This file shallowly embeds the parts of the Rust source relevant to the
behavioural claims about the program:

* the data model (src/models.rs),
* the per-call retry loops of the protocol client (src/requests.rs),
* the per-track download state machine of `download_track`
  (src/downloaders.rs), driven by a script of remote responses and a
  supply of job handles returned by successive submit calls,
* the album/track worker loops (src/workers.rs, src/main.rs),
* the cover-URL rewrite and the file-output step (src/downloaders.rs).

Remote I/O is modelled by scripts: a list of HTTP responses consumed in
order by a retry loop, and a list of protocol-level outcomes consumed by
the state machine.  Each embedded retry loop additionally reports the
list of sleep durations it performed (in seconds) and the number of
attempts it made, so that retry/backoff claims can be stated.  Panics
(via `unwrap` or an explicit panic) are modelled as `none` results; `File::create_new`
is modelled by a list-based file system that refuses existing names.
-/

namespace Lucida

/-- Upstream service tag (src/models.rs, `enum Service`). -/
inductive Service
  | qobuz
  | tidal
deriving DecidableEq

/-- Artist record (src/models.rs, `struct Artist`). -/
structure Artist where
  name : String
deriving DecidableEq

/-- Track descriptor (src/models.rs, `struct Track`). -/
structure Track where
  title : String
  url : String
  artists : List Artist
  producers : Option (List String)
  csrf : String
  csrf_fallback : Option String
deriving DecidableEq

/-- Download job handle (src/models.rs, `struct TrackDownload`). -/
structure TrackDownload where
  handoff : String
  server : String
deriving DecidableEq

/-- Poll status payload (src/models.rs, `struct TrackDownloadStatus`). -/
structure TrackDownloadStatus where
  status : String
  message : String
deriving DecidableEq

/-- Submit response payload (src/models.rs, `enum TrackDownloadResult`). -/
inductive TrackDownloadResult
  | ok (td : TrackDownload)
  | error (msg : String)
deriving DecidableEq

namespace Requests

/-- One HTTP response to the resolve-album GET (src/requests.rs,
`resolve_album`): either a 200 with a text body, or some non-200 status. -/
inductive ResolveHttp
  | ok (body : String)
  | code (status : Nat)
deriving DecidableEq

/-- Embedding of `requests::resolve_album` (src/requests.rs lines 14-48).
Consumes HTTP responses in order; on 200 returns the body.  On a non-200
status it logs, returns `none` (for the whole album) if the cancellation
flag read at that iteration is false, otherwise sleeps 5 seconds and
retries.  Result: `(body? , sleep list, attempts)`; the outer `none`
means the response script was exhausted (a model artifact only). -/
def resolve_album : List ResolveHttp → List Bool → Option (Option String × List Nat × Nat)
  | [], _ => none
  | .ok body :: _, _ => some (some body, [], 1)
  | .code _ :: rest, flags =>
    match flags with
    | [] => none
    | running :: fs =>
      if running then
        (resolve_album rest fs).map fun r => (r.1, 5 :: r.2.1, r.2.2 + 1)
      else
        some (none, [], 1)

/-- One HTTP response to the submit POST (src/requests.rs,
`request_track_download`): a 200 whose JSON parsed into a
`TrackDownloadResult`, a 200 with malformed JSON, or a non-200 status. -/
inductive SubmitHttp
  | okJson (r : TrackDownloadResult)
  | badJson
  | code (status : Nat)
deriving DecidableEq

/-- Embedding of `requests::request_track_download` (src/requests.rs lines
50-113).  A 200 with a success payload returns the job handle; a 200 with
a job-error payload, a 200 with malformed JSON, and any non-200 status all
sleep 5 seconds and retry the same call.  Result:
`(handle, sleep list, attempts)`. -/
def request_track_download : List SubmitHttp → Option (TrackDownload × List Nat × Nat)
  | [] => none
  | .okJson (.ok td) :: _ => some (td, [], 1)
  | .okJson (.error _) :: rest =>
    (request_track_download rest).map fun r => (r.1, 5 :: r.2.1, r.2.2 + 1)
  | .badJson :: rest =>
    (request_track_download rest).map fun r => (r.1, 5 :: r.2.1, r.2.2 + 1)
  | .code _ :: rest =>
    (request_track_download rest).map fun r => (r.1, 5 :: r.2.1, r.2.2 + 1)

/-- Whether a submit response makes `request_track_download` retry
(everything except a 200 with a success payload). -/
def isTransientSubmit : SubmitHttp → Bool
  | .okJson (.ok _) => false
  | .okJson (.error _) => true
  | .badJson => true
  | .code _ => true

/-- One HTTP response to the poll GET (src/requests.rs,
`track_download_status`): a 200 with a parsed status payload, or a
non-200 status. -/
inductive PollHttp
  | ok (td : TrackDownloadStatus)
  | code (status : Nat)
deriving DecidableEq

/-- Embedding of `requests::track_download_status` (src/requests.rs lines
115-148).  A 200 returns the parsed status; a 500 breaks out with `none`
(fatal for the current job); any other non-200 status sleeps 5 seconds and
retries the same call.  Result: `(status?, sleep list, attempts)` where an
inner `none` is the fatal break. -/
def track_download_status : List PollHttp → Option (Option TrackDownloadStatus × List Nat × Nat)
  | [] => none
  | .ok td :: _ => some (some td, [], 1)
  | .code st :: rest =>
    if st = 500 then some (none, [], 1)
    else (track_download_status rest).map fun r => (r.1, 5 :: r.2.1, r.2.2 + 1)

/-- One HTTP response to the fetch GET (src/requests.rs,
`download_track`): a 200 whose body was read successfully (bytes plus the
content-type header), a 200 whose body read failed, or a non-200 status. -/
inductive FetchHttp
  | ok (bytes : List Nat) (mime : String)
  | bodyErr (mime : String)
  | code (status : Nat)
deriving DecidableEq

/-- Embedding of `requests::download_track` (src/requests.rs lines
150-195).  A 200 with a readable body returns the bytes and content type;
a 200 whose body read errors logs and immediately retries the same call
(no sleep in the source); a 500 breaks out with `none` (fatal for the
current job); any other non-200 status sleeps 5 seconds and retries.
Result: `((bytes, mime)?, sleep list, attempts)`. -/
def download_track : List FetchHttp → Option (Option (List Nat × String) × List Nat × Nat)
  | [] => none
  | .ok bytes mime :: _ => some (some (bytes, mime), [], 1)
  | .bodyErr _ :: rest =>
    (download_track rest).map fun r => (r.1, r.2.1, r.2.2 + 1)
  | .code st :: rest =>
    if st = 500 then some (none, [], 1)
    else (download_track rest).map fun r => (r.1, 5 :: r.2.1, r.2.2 + 1)

/-- One HTTP response to the cover GET (src/requests.rs,
`download_album_cover`): a 200 with the body bytes, or a non-200 status. -/
inductive CoverHttp
  | ok (bytes : List Nat)
  | code (status : Nat)
deriving DecidableEq

/-- Embedding of `requests::download_album_cover` (src/requests.rs lines
197-219).  A 200 returns the bytes; a 404 returns `none` (album has no
cover, skipped silently); any other non-200 status logs and immediately
retries the same call — the source performs no sleep in this loop.
Result: `(bytes?, sleep list, attempts)`. -/
def download_album_cover : List CoverHttp → Option (Option (List Nat) × List Nat × Nat)
  | [] => none
  | .ok bytes :: _ => some (some bytes, [], 1)
  | .code st :: rest =>
    if st = 404 then some (none, [], 1)
    else (download_album_cover rest).map fun r => (r.1, r.2.1, r.2.2 + 1)

end Requests

namespace Machine

/-- Control state of the per-track download loop in
`downloaders::download_track` (src/downloaders.rs lines 207-273): about to
submit (`'track_download` loop head), polling a handle while remembering
the last distinct (status, message) pair and the instant it was first
observed, or about to fetch the asset for a handle. -/
inductive Phase
  | submitting
  | polling (h : TrackDownload) (last : Option (String × String × Nat))
  | fetching (h : TrackDownload)
deriving DecidableEq

/-- One protocol-level outcome consumed by the state machine: the result
of a completed `requests::track_download_status` call (a parsed status
observed at instant `now`, or the fatal `None` produced by a 500), or the
result of a completed `requests::download_track` call (bytes plus content
type, or the fatal `None` produced by a 500). -/
inductive Resp
  | pollOk (now : Nat) (td : TrackDownloadStatus)
  | pollFatal
  | fetchOk (bytes : List Nat) (mime : String)
  | fetchFatal
deriving DecidableEq

/-- Trace entry: one remote operation performed by the state machine,
with the handle it was performed on. -/
inductive Call
  | submit
  | poll (h : TrackDownload)
  | fetch (h : TrackDownload)
deriving DecidableEq

/-- Embedding of the condition
`last_status.as_ref().is_none_or(|l| (&s, &m) != (&l.0, &l.1))`
(src/downloaders.rs line 232): the observed pair differs from the
remembered one (or nothing is remembered yet). -/
def isNewPair : Option (String × String × Nat) → TrackDownloadStatus → Bool
  | none, _ => true
  | some (s, m, _), td => !(td.status == s && td.message == m)

/-- Pure transition of the polling loop body (src/downloaders.rs lines
232-264) on a successfully parsed status observed at instant `now`: a new
distinct pair is remembered with its observation instant (and `completed`
moves on to fetching); a repeated pair that has persisted for at least 30
seconds abandons the handle and restarts submission; otherwise polling
continues (the source branch where the pair repeats while nothing is
remembered is unreachable and keeps polling). -/
def poll_transition (h : TrackDownload) (last : Option (String × String × Nat))
    (now : Nat) (td : TrackDownloadStatus) : Phase :=
  if isNewPair last td then
    if td.status = "completed" then .fetching h
    else .polling h (some (td.status, td.message, now))
  else
    match last with
    | none => .polling h last
    | some (_, _, firstSeen) =>
      if 30 ≤ now - firstSeen then .submitting
      else if td.status = "completed" then .fetching h
      else .polling h last

/-- Fuel-indexed executor of the `'track_download` labelled loop of
`downloaders::download_track` (src/downloaders.rs lines 207-273).
`submits` lists the handles returned by successive successful
`request_track_download` calls; `script` lists the protocol outcomes of
successive poll/fetch calls.  Returns the fetched `(bytes, mime)` (or
`none` when fuel, handles or script run out — a model artifact) together
with the trace of remote calls made. -/
def run : Nat → List TrackDownload → List Resp → Phase →
    Option (List Nat × String) × List Call
  | 0, _, _, _ => (none, [])
  | fuel + 1, submits, script, .submitting =>
    match submits with
    | [] => (none, [])
    | h :: rest =>
      let r := run fuel rest script (.polling h none)
      (r.1, .submit :: r.2)
  | fuel + 1, submits, script, .polling h last =>
    match script with
    | [] => (none, [])
    | .pollFatal :: rest =>
      let r := run fuel submits rest .submitting
      (r.1, .poll h :: r.2)
    | .pollOk now td :: rest =>
      let r := run fuel submits rest (poll_transition h last now td)
      (r.1, .poll h :: r.2)
    | .fetchOk _ _ :: _ => (none, [])
    | .fetchFatal :: _ => (none, [])
  | fuel + 1, submits, script, .fetching h =>
    match script with
    | [] => (none, [])
    | .fetchFatal :: rest =>
      let r := run fuel submits rest .submitting
      (r.1, .fetch h :: r.2)
    | .fetchOk bytes mime :: _ => (some (bytes, mime), [.fetch h])
    | .pollOk _ _ :: _ => (none, [])
    | .pollFatal :: _ => (none, [])

/-- Number of submit calls in a trace. -/
def countSubmits : List Call → Nat
  | [] => 0
  | .submit :: tr => countSubmits tr + 1
  | .poll _ :: tr => countSubmits tr
  | .fetch _ :: tr => countSubmits tr

/-- Handles polled in a trace. -/
def polled : List Call → List TrackDownload
  | [] => []
  | .poll h :: tr => h :: polled tr
  | .submit :: tr => polled tr
  | .fetch _ :: tr => polled tr

/-- Handle currently held by a phase, if any. -/
def phaseHandles : Phase → List TrackDownload
  | .submitting => []
  | .polling h _ => [h]
  | .fetching h => [h]

end Machine

namespace Downloaders

open Machine

/-- Models `File::create_new(path)` followed by `write_all(bytes)` as
used in src/downloaders.rs lines 305-306 and 332-335: creation fails
(the source then panics via `unwrap`, modelled as `none`) whenever a file
of the same name already exists; otherwise the new file is appended. -/
def create_new (fsys : List (String × List Nat)) (name : String) (bytes : List Nat) :
    Option (List (String × List Nat)) :=
  if (fsys.map Prod.fst).contains name then none
  else some (fsys ++ [(name, bytes)])

/-- Embedding of the content-type match of `downloaders::download_track`
(src/downloaders.rs lines 293-296): `audio/flac` maps to the `flac`
extension and every other value panics (modelled as `none`). -/
def fileExtensionOf (mime : String) : Option String :=
  if mime = "audio/flac" then some "flac" else none

/-- Embedding of the guard
`matches!(service, Service::Qobuz) && track.producers.is_none()`
(src/downloaders.rs line 193). -/
def matchesQobuz : Service → Bool
  | .qobuz => true
  | .tidal => false

/-- Body of `downloaders::download_track` after the skip guard
(src/downloaders.rs lines 202-307): run the submit/poll/fetch state
machine, map the declared content type to an extension (panicking on an
unknown one), and create the output file with create-new semantics.
`fileName` composes the final file name from the extension (the
number/artist/title formatting is not under verification here).  Returns
the updated file system (`none` on panic or script exhaustion) and the
trace of remote calls. -/
def download_track_body (fuel : Nat) (submits : List TrackDownload) (script : List Resp)
    (fileName : String → String) (fsys : List (String × List Nat)) :
    Option (List (String × List Nat)) × List Call :=
  match run fuel submits script .submitting with
  | (none, tr) => (none, tr)
  | (some (bytes, mime), tr) =>
    match fileExtensionOf mime with
    | none => (none, tr)
    | some ext =>
      match create_new fsys (fileName ext) bytes with
      | none => (none, tr)
      | some fsys2 => (some fsys2, tr)

/-- Embedding of `downloaders::download_track` (src/downloaders.rs lines
179-307): a track whose service is Qobuz and whose descriptor has no
producer list is skipped — no remote call, no file; otherwise the
download body runs. -/
def download_track (fuel : Nat) (service : Service) (track : Track)
    (submits : List TrackDownload) (script : List Resp)
    (fileName : String → String) (fsys : List (String × List Nat)) :
    Option (List (String × List Nat)) × List Call :=
  if matchesQobuz service && track.producers.isNone then (some fsys, [])
  else download_track_body fuel submits script fileName fsys

/-- Does `text` start with `pat`? (character-list version of Rust
`str::starts_with`, used to define substring containment). -/
def startsWithL : List Char → List Char → Bool
  | _, [] => true
  | [], _ :: _ => false
  | c :: t, p :: ps => c == p && startsWithL t ps

/-- Does `text` contain `pat` as a contiguous substring? (character-list
version of Rust `str::contains` as used on line 46 of
src/downloaders.rs). -/
def containsSeq : List Char → List Char → Bool
  | [], pat => startsWithL [] pat
  | text@(_ :: t), pat => startsWithL text pat || containsSeq t pat

/-- Known service-side error phrases checked against a 200 resolve body
(src/downloaders.rs lines 40-44). -/
def errorPhrases : List String :=
  ["An error occured trying to process your request.",
   "Message: \"Cannot contact any valid server\"",
   "An error occurred. Had an issue getting that item, try again."]

/-- Embedding of
`[...].into_iter().find(|&error| html.contains(error))`
(src/downloaders.rs lines 40-47). -/
def findErrorPhrase (html : String) : Option String :=
  errorPhrases.find? fun e => containsSeq html.toList e.toList

/-- One iteration input of the resolve loop of
`downloaders::download_album` (src/downloaders.rs lines 33-58): the
outcome of the inner `requests::resolve_album` call (`cancelled` when it
returned `None`) and the value of the cancellation flag at the
error-phrase check. -/
inductive ResolveOutcome
  | cancelled
  | page (html : String)

/-- Embedding of the resolve loop of `downloaders::download_album`
(src/downloaders.rs lines 33-58).  A cancelled inner resolve aborts the
album.  A 200 body containing a known error phrase is transient: if the
cancellation flag is false the album is aborted, otherwise the loop
sleeps 5 seconds and reissues the resolve call.  A body with no error
phrase ends the loop and is the resolved page.  Result:
`(body?, sleep list)`; the outer `none` means the iteration script was
exhausted (a model artifact). -/
def resolve_loop : List (ResolveOutcome × Bool) → Option (Option String × List Nat)
  | [] => none
  | (.cancelled, _) :: _ => some (none, [])
  | (.page html, running) :: rest =>
    match findErrorPhrase html with
    | none => some (some html, [])
    | some _ =>
      if running then (resolve_loop rest).map fun r => (r.1, 5 :: r.2)
      else some (none, [])

/-- Models Rust `str::strip_suffix` on character lists (src/downloaders.rs
line 321): the list without the given suffix, or `none` when the list
does not end with it. -/
def dropSuffixL (l suffix : List Char) : Option (List Char) :=
  if l.drop (l.length - suffix.length) = suffix then
    some (l.take (l.length - suffix.length))
  else none

/-- Models Rust `str::rfind('_')` on character lists (src/downloaders.rs
line 322): the index of the last underscore, if any. -/
def lastUnderscoreIdx : List Char → Option Nat
  | [] => none
  | c :: rest =>
    match lastUnderscoreIdx rest with
    | some j => some (j + 1)
    | none => if c == '_' then some 0 else none

/-- Embedding of the cover-URL rewrite of
`downloaders::download_album_cover` (src/downloaders.rs lines 319-326):
Tidal artwork URLs pass through unchanged; Qobuz URLs have everything
after the last underscore replaced by `org.jpg`.  Stripping the `.jpg`
suffix or finding the underscore panics via `unwrap` when impossible
(modelled as `none`). -/
def rewrite_cover_url (service : Service) (url : List Char) : Option (List Char) :=
  match service with
  | .qobuz =>
    match dropSuffixL url ".jpg".toList with
    | none => none
    | some strippedUrl =>
      match lastUnderscoreIdx strippedUrl with
      | none => none
      | some i => some (url.take (i + 1) ++ "org.jpg".toList)
  | .tidal => some url

/-- Embedding of `downloaders::download_album_cover` (src/downloaders.rs
lines 309-336): rewrite the artwork URL for the service (panicking on a
malformed Qobuz URL), fetch it (the request-level retry loop), return
without a file on a 404, and otherwise create `cover.jpg` with create-new
semantics.  Returns the updated file system, `none` on panic. -/
def download_album_cover (service : Service) (url : List Char)
    (script : List Requests.CoverHttp) (fsys : List (String × List Nat)) :
    Option (List (String × List Nat)) :=
  match rewrite_cover_url service url with
  | none => none
  | some _ =>
    match Requests.download_album_cover script with
    | none => none
    | some (none, _, _) => some fsys
    | some (some bytes, _, _) => create_new fsys "cover.jpg" bytes

/-- Track workers spawned for one album (src/downloaders.rs lines
138-160): none at all when track downloading is disabled, otherwise
workers numbered `1..=min(track_workers, tracks_len)`. -/
def spawned_track_workers (skip_tracks : Bool) (track_workers tracks_len : Nat) : List Nat :=
  if skip_tracks then [] else List.range' 1 (min track_workers tracks_len)

end Downloaders

namespace Main

/-- Album workers spawned by `main` (src/main.rs lines 48-60) once the
URL list is known to be non-empty: workers numbered
`1..=min(album_workers, urls_len)`. -/
def spawned_album_workers (album_workers urls_len : Nat) : List Nat :=
  List.range' 1 (min album_workers urls_len)

/-- Time-indexed view of the cancellation flag (src/main.rs lines 46 and
52-56): the `AtomicBool` starts true and the ctrl-c handler stores false
exactly once, at instant `interrupt`; the flag is never written again. -/
def flagAt (interrupt : Option Nat) (t : Nat) : Bool :=
  match interrupt with
  | none => true
  | some i => decide (t < i)

end Main

namespace Workers

open Downloaders

/-- Embedding of `workers::run_album_worker` (src/workers.rs lines 14-50):
before every pop the worker reads the cancellation flag and stops when it
is false; an empty queue also stops it.  The queue is the URL stack with
its top at the head (Rust pops from the end of the reversed `Vec`).
Returns the URLs actually popped; `t` is the instant of the flag read,
advancing by one per iteration. -/
def run_album_worker (flag : Nat → Bool) : Nat → List String → List String
  | _, [] => []
  | t, url :: rest =>
    if flag t then url :: run_album_worker flag (t + 1) rest
    else []

/-- Per-track environment for a track worker: the handle supply, protocol
script and file-name composition used by that track's
`download_track` run. -/
structure TrackEnv where
  submits : List TrackDownload
  script : List Machine.Resp
  fileName : String → String

/-- Embedding of `workers::run_track_worker` (src/workers.rs lines 57-87):
the worker loops popping one (ordinal, track) pair — the queue's top at
the head — and runs `downloaders::download_track` on it; it reads no
cancellation flag and stops only on an empty queue (or by dying on a
panic, modelled as a `none` file system).  Returns the popped items and
the final file system. -/
def run_track_worker (fuel : Nat) (service : Service) (env : Nat → TrackEnv) :
    Nat → List (Option Nat × Track) → List (String × List Nat) →
    List (Option Nat × Track) × Option (List (String × List Nat))
  | _, [], fsys => ([], some fsys)
  | n, item :: rest, fsys =>
    match Downloaders.download_track fuel service item.2 (env n).submits (env n).script
        (env n).fileName fsys with
    | (none, _) => ([item], none)
    | (some fsys2, _) =>
      let r := run_track_worker fuel service env (n + 1) rest fsys2
      (item :: r.1, r.2)

end Workers

end Lucida

open Lucida Lucida.Machine Lucida.Downloaders Lucida.Workers Lucida.Main

/-! ## Helper lemmas about the state-machine executor -/

/-- Unfolding: a submit step hands out the next scripted handle. -/
lemma run_submitting_cons (f : Nat) (h : TrackDownload) (rest : List TrackDownload)
    (script : List Resp) :
    run (f + 1) (h :: rest) script .submitting =
      ((run f rest script (.polling h none)).1,
        .submit :: (run f rest script (.polling h none)).2) := rfl

/-- Unfolding: a successfully parsed status steps through
`poll_transition`. -/
lemma run_polling_pollOk (f : Nat) (submits : List TrackDownload) (h : TrackDownload)
    (last : Option (String × String × Nat)) (now : Nat) (td : TrackDownloadStatus)
    (rest : List Resp) :
    run (f + 1) submits (.pollOk now td :: rest) (.polling h last) =
      ((run f submits rest (poll_transition h last now td)).1,
        .poll h :: (run f submits rest (poll_transition h last now td)).2) := rfl

/-- Unfolding: a fatal poll abandons the handle and restarts submission. -/
lemma run_polling_pollFatal (f : Nat) (submits : List TrackDownload) (h : TrackDownload)
    (last : Option (String × String × Nat)) (rest : List Resp) :
    run (f + 1) submits (.pollFatal :: rest) (.polling h last) =
      ((run f submits rest .submitting).1,
        .poll h :: (run f submits rest .submitting).2) := rfl

/-- Unfolding: a fatal fetch abandons the handle and restarts submission. -/
lemma run_fetching_fetchFatal (f : Nat) (submits : List TrackDownload) (h : TrackDownload)
    (rest : List Resp) :
    run (f + 1) submits (.fetchFatal :: rest) (.fetching h) =
      ((run f submits rest .submitting).1,
        .fetch h :: (run f submits rest .submitting).2) := rfl

/-- Unfolding: a successful fetch terminates the machine. -/
lemma run_fetching_fetchOk (f : Nat) (submits : List TrackDownload) (h : TrackDownload)
    (bytes : List Nat) (mime : String) (rest : List Resp) :
    run (f + 1) submits (.fetchOk bytes mime :: rest) (.fetching h) =
      (some (bytes, mime), [.fetch h]) := rfl

/-- Every handle held after a poll transition is the polled handle. -/
lemma poll_transition_handles (h : TrackDownload) (last : Option (String × String × Nat))
    (now : Nat) (td : TrackDownloadStatus) :
    ∀ x ∈ phaseHandles (poll_transition h last now td), x = h := by
  intro x hx
  unfold poll_transition at hx
  repeat' split at hx
  all_goals first
    | exact hx
    | simp_all [phaseHandles]

/-- Every handle the executor ever polls comes from the handle supply or
from the phase it starts in: fresh runs never poll an abandoned handle. -/
lemma polled_run_mem (fuel : Nat) :
    ∀ (submits : List TrackDownload) (script : List Resp) (ph : Phase)
      (x : TrackDownload), x ∈ polled (run fuel submits script ph).2 →
      x ∈ submits ∨ x ∈ phaseHandles ph := by
  induction fuel with
  | zero => intro submits script ph x hx; simp [run, polled] at hx
  | succ f ih =>
    intro submits script ph x hx
    cases ph with
    | submitting =>
      cases submits with
      | nil => simp [run, polled] at hx
      | cons h rest =>
        rw [run_submitting_cons] at hx
        simp only [polled] at hx
        rcases ih rest script (.polling h none) x hx with h1 | h1
        · exact Or.inl (List.mem_cons_of_mem _ h1)
        · simp only [phaseHandles, List.mem_singleton] at h1
          subst h1
          exact Or.inl (List.mem_cons_self _ _)
    | polling h last =>
      cases script with
      | nil => simp [run, polled] at hx
      | cons r rest =>
        cases r with
        | pollOk now td =>
          rw [run_polling_pollOk] at hx
          simp only [polled, List.mem_cons] at hx
          rcases hx with rfl | hx
          · exact Or.inr (by simp [phaseHandles])
          · rcases ih submits rest _ x hx with h1 | h1
            · exact Or.inl h1
            · have := poll_transition_handles h last now td x h1
              subst this
              exact Or.inr (by simp [phaseHandles])
        | pollFatal =>
          rw [run_polling_pollFatal] at hx
          simp only [polled, List.mem_cons] at hx
          rcases hx with rfl | hx
          · exact Or.inr (by simp [phaseHandles])
          · rcases ih submits rest .submitting x hx with h1 | h1
            · exact Or.inl h1
            · simp [phaseHandles] at h1
        | fetchOk bytes mime => simp [run, polled] at hx
        | fetchFatal => simp [run, polled] at hx
    | fetching h =>
      cases script with
      | nil => simp [run, polled] at hx
      | cons r rest =>
        cases r with
        | pollOk now td => simp [run, polled] at hx
        | pollFatal => simp [run, polled] at hx
        | fetchOk bytes mime => rw [run_fetching_fetchOk] at hx; simp [polled] at hx
        | fetchFatal =>
          rw [run_fetching_fetchFatal] at hx
          simp only [polled] at hx
          rcases ih submits rest .submitting x hx with h1 | h1
          · exact Or.inl h1
          · simp [phaseHandles] at h1

/-! ## Claim theorems -/

/-- C1: in the polling state, when the same (status, message) pair is
observed again at least 30 seconds after its first observation, the
current job handle is abandoned and the machine re-enters submission,
issuing a fresh submit call — so submit is called at least twice for the
track — and, as long as later submits hand out fresh handles, the
abandoned handle is never polled again. -/
theorem stuck_status_restarts_submission
    (f : Nat) (h₀ h₁ : TrackDownload) (subs : List TrackDownload)
    (s m : String) (t0 now : Nat) (rest : List Resp)
    (hs : s ≠ "completed") (hstuck : 30 ≤ now - t0)
    (hfresh : h₀ ∉ h₁ :: subs) :
    (run (f + 4) (h₀ :: h₁ :: subs)
        (.pollOk t0 ⟨s, m⟩ :: .pollOk now ⟨s, m⟩ :: rest) .submitting).2 =
      .submit :: .poll h₀ :: .poll h₀ :: .submit ::
        (run f subs rest (.polling h₁ none)).2 ∧
    2 ≤ countSubmits ((run (f + 4) (h₀ :: h₁ :: subs)
        (.pollOk t0 ⟨s, m⟩ :: .pollOk now ⟨s, m⟩ :: rest) .submitting).2) ∧
    h₀ ∉ polled ((run f subs rest (.polling h₁ none)).2) := by
  have e1 : poll_transition h₀ none t0 ⟨s, m⟩ = .polling h₀ (some (s, m, t0)) := by
    simp [poll_transition, isNewPair, hs]
  have e2 : poll_transition h₀ (some (s, m, t0)) now ⟨s, m⟩ = .submitting := by
    simp [poll_transition, isNewPair, hstuck]
  have E : run (f + 4) (h₀ :: h₁ :: subs)
        (.pollOk t0 ⟨s, m⟩ :: .pollOk now ⟨s, m⟩ :: rest) .submitting =
      ((run f subs rest (.polling h₁ none)).1,
        .submit :: .poll h₀ :: .poll h₀ :: .submit ::
          (run f subs rest (.polling h₁ none)).2) := by
    rw [show f + 4 = f + 3 + 1 from rfl, run_submitting_cons,
      show f + 3 = f + 2 + 1 from rfl, run_polling_pollOk, e1,
      show f + 2 = f + 1 + 1 from rfl, run_polling_pollOk, e2,
      run_submitting_cons]
  refine ⟨by rw [E], ?_, ?_⟩
  · rw [E]
    simp [countSubmits]
  · intro hmem
    rcases polled_run_mem f subs rest (.polling h₁ none) h₀ hmem with h1 | h1
    · exact hfresh (List.mem_cons_of_mem _ h1)
    · simp only [phaseHandles, List.mem_singleton] at h1
      subst h1
      exact hfresh (List.mem_cons_self _ _)

/-- Witness for C1 at a concrete stuck run: two poll observations of the
same pair 30 seconds apart force a second submit, and the first handle is
gone from the continuation. -/
theorem stuck_status_restarts_submission_witness :
    (run 4 [⟨"h0", "s"⟩, ⟨"h1", "s"⟩]
        [.pollOk 0 ⟨"processing", "m"⟩, .pollOk 30 ⟨"processing", "m"⟩] .submitting).2 =
      [.submit, .poll ⟨"h0", "s"⟩, .poll ⟨"h0", "s"⟩, .submit] ∧
    2 ≤ countSubmits ((run 4 [⟨"h0", "s"⟩, ⟨"h1", "s"⟩]
        [.pollOk 0 ⟨"processing", "m"⟩, .pollOk 30 ⟨"processing", "m"⟩] .submitting).2) ∧
    (⟨"h0", "s"⟩ : TrackDownload) ∉ polled ((run 0 [] [] (.polling ⟨"h1", "s"⟩ none)).2) :=
  stuck_status_restarts_submission 0 ⟨"h0", "s"⟩ ⟨"h1", "s"⟩ [] "processing" "m" 0 30 []
    (by decide) (by decide) (by decide)

/-- C2: a 500 from the poll or fetch request makes that request return
the fatal `none` at once while any other non-200 status retries the same
call after a sleep; the state machine reacts to a fatal poll or fetch by
abandoning the handle and re-entering submission (submit is called at
least twice), and a track whose script recovers after the fatal still
ends in a written file — no error leaves the track's processing. -/
theorem fatal_poll_or_fetch_restarts_submission :
    (∀ rest : List Requests.PollHttp,
      Requests.track_download_status (.code 500 :: rest) = some (none, [], 1)) ∧
    (∀ (st : Nat) (rest : List Requests.PollHttp), st ≠ 500 →
      Requests.track_download_status (.code st :: rest) =
        (Requests.track_download_status rest).map fun r => (r.1, 5 :: r.2.1, r.2.2 + 1)) ∧
    (∀ rest : List Requests.FetchHttp,
      Requests.download_track (.code 500 :: rest) = some (none, [], 1)) ∧
    (∀ (st : Nat) (rest : List Requests.FetchHttp), st ≠ 500 →
      Requests.download_track (.code st :: rest) =
        (Requests.download_track rest).map fun r => (r.1, 5 :: r.2.1, r.2.2 + 1)) ∧
    (∀ (f : Nat) (h₀ h₁ : TrackDownload) (subs : List TrackDownload) (rest : List Resp),
      (run (f + 3) (h₀ :: h₁ :: subs) (.pollFatal :: rest) .submitting).2 =
        .submit :: .poll h₀ :: .submit :: (run f subs rest (.polling h₁ none)).2 ∧
      2 ≤ countSubmits ((run (f + 3) (h₀ :: h₁ :: subs) (.pollFatal :: rest) .submitting).2)) ∧
    (∀ (f t : Nat) (h₀ h₁ : TrackDownload) (subs : List TrackDownload) (m : String)
        (rest : List Resp),
      (run (f + 4) (h₀ :: h₁ :: subs)
          (.pollOk t ⟨"completed", m⟩ :: .fetchFatal :: rest) .submitting).2 =
        .submit :: .poll h₀ :: .fetch h₀ :: .submit ::
          (run f subs rest (.polling h₁ none)).2 ∧
      2 ≤ countSubmits ((run (f + 4) (h₀ :: h₁ :: subs)
          (.pollOk t ⟨"completed", m⟩ :: .fetchFatal :: rest) .submitting).2)) ∧
    (∀ (f t : Nat) (track : Track) (fileName : String → String)
        (fsys : List (String × List Nat)) (h₀ h₁ : TrackDownload) (bytes : List Nat)
        (m : String),
      (fsys.map Prod.fst).contains (fileName "flac") = false →
      Downloaders.download_track (f + 5) .tidal track [h₀, h₁]
          [.pollFatal, .pollOk t ⟨"completed", m⟩, .fetchOk bytes "audio/flac"]
          fileName fsys =
        (some (fsys ++ [(fileName "flac", bytes)]),
          [.submit, .poll h₀, .submit, .poll h₁, .fetch h₁])) := by
  refine ⟨?_, ?_, ?_, ?_, ?_, ?_, ?_⟩
  · intro rest
    simp [Requests.track_download_status]
  · intro st rest hst
    simp [Requests.track_download_status, hst]
  · intro rest
    simp [Requests.download_track]
  · intro st rest hst
    simp [Requests.download_track, hst]
  · intro f h₀ h₁ subs rest
    have E : run (f + 3) (h₀ :: h₁ :: subs) (.pollFatal :: rest) .submitting =
        ((run f subs rest (.polling h₁ none)).1,
          .submit :: .poll h₀ :: .submit :: (run f subs rest (.polling h₁ none)).2) := by
      rw [show f + 3 = f + 2 + 1 from rfl, run_submitting_cons,
        show f + 2 = f + 1 + 1 from rfl, run_polling_pollFatal, run_submitting_cons]
    exact ⟨by rw [E], by rw [E]; simp [countSubmits]⟩
  · intro f t h₀ h₁ subs m rest
    have e : poll_transition h₀ none t ⟨"completed", m⟩ = .fetching h₀ := by
      simp [poll_transition, isNewPair]
    have E : run (f + 4) (h₀ :: h₁ :: subs)
          (.pollOk t ⟨"completed", m⟩ :: .fetchFatal :: rest) .submitting =
        ((run f subs rest (.polling h₁ none)).1,
          .submit :: .poll h₀ :: .fetch h₀ :: .submit ::
            (run f subs rest (.polling h₁ none)).2) := by
      rw [show f + 4 = f + 3 + 1 from rfl, run_submitting_cons,
        show f + 3 = f + 2 + 1 from rfl, run_polling_pollOk, e,
        show f + 2 = f + 1 + 1 from rfl, run_fetching_fetchFatal, run_submitting_cons]
    exact ⟨by rw [E], by rw [E]; simp [countSubmits]⟩
  · intro f t track fileName fsys h₀ h₁ bytes m hfresh
    have e : poll_transition h₁ none t ⟨"completed", m⟩ = .fetching h₁ := by
      simp [poll_transition, isNewPair]
    have E : run (f + 5) [h₀, h₁]
          [.pollFatal, .pollOk t ⟨"completed", m⟩, .fetchOk bytes "audio/flac"] .submitting =
        (some (bytes, "audio/flac"),
          [.submit, .poll h₀, .submit, .poll h₁, .fetch h₁]) := by
      rw [show f + 5 = f + 4 + 1 from rfl, run_submitting_cons,
        show f + 4 = f + 3 + 1 from rfl, run_polling_pollFatal,
        show f + 3 = f + 2 + 1 from rfl, run_submitting_cons,
        show f + 2 = f + 1 + 1 from rfl, run_polling_pollOk, e, run_fetching_fetchOk]
    simp only [Downloaders.download_track, matchesQobuz, download_track_body, E,
      fileExtensionOf, create_new, Bool.false_and, Bool.if_false_left, if_true,
      Bool.false_eq_true, if_false]
    rw [hfresh]
    simp

/-- Witness for C2 at concrete inputs: a 500 poll is fatal, a 404 poll
retries, and a track whose poll returns 500 once and then completes is
still downloaded with two submits. -/
theorem fatal_poll_or_fetch_restarts_submission_witness :
    Requests.track_download_status [.code 500] = some (none, [], 1) ∧
    Requests.track_download_status [.code 404, .ok ⟨"completed", "m"⟩] =
      some (some ⟨"completed", "m"⟩, [5], 2) ∧
    Requests.download_track [.code 500] = some (none, [], 1) ∧
    Requests.download_track [.code 404, .ok [7] "audio/flac"] =
      some (some ([7], "audio/flac"), [5], 2) ∧
    (run 3 [⟨"h0", "s"⟩, ⟨"h1", "s"⟩] [.pollFatal] .submitting).2 =
      [.submit, .poll ⟨"h0", "s"⟩, .submit] ∧
    2 ≤ countSubmits ((run 3 [⟨"h0", "s"⟩, ⟨"h1", "s"⟩] [.pollFatal] .submitting).2) ∧
    Downloaders.download_track 5 .tidal
        ⟨"t", "u", [], none, "c", none⟩ [⟨"h0", "s"⟩, ⟨"h1", "s"⟩]
        [.pollFatal, .pollOk 0 ⟨"completed", "m"⟩, .fetchOk [7] "audio/flac"]
        (fun e => "x." ++ e) [] =
      (some [("x.flac", [7])],
        [.submit, .poll ⟨"h0", "s"⟩, .submit, .poll ⟨"h1", "s"⟩, .fetch ⟨"h1", "s"⟩]) := by
  obtain ⟨c1, c2, c3, c4, c5, c6, c7⟩ := fatal_poll_or_fetch_restarts_submission
  refine ⟨c1 [], ?_, c3 [], ?_, (c5 0 ⟨"h0", "s"⟩ ⟨"h1", "s"⟩ [] []).1,
    (c5 0 ⟨"h0", "s"⟩ ⟨"h1", "s"⟩ [] []).2,
    c7 0 0 ⟨"t", "u", [], none, "c", none⟩ (fun e => "x." ++ e) [] ⟨"h0", "s"⟩ ⟨"h1", "s"⟩
      [7] "m" (by decide)⟩
  · have := c2 404 [.ok ⟨"completed", "m"⟩] (by decide)
    rw [this]
    rfl
  · have := c4 404 [.ok [7] "audio/flac"] (by decide)
    rw [this]
    rfl

/-- Helper for C3: the resolve loop sleeps 5 seconds for each non-200
status and retries without a ceiling. -/
lemma resolve_album_transient (sts : List Nat) :
    ∀ (body : String) (rest : List Requests.ResolveHttp),
    Requests.resolve_album (sts.map .code ++ .ok body :: rest)
        (List.replicate sts.length true) =
      some (some body, List.replicate sts.length 5, sts.length + 1) := by
  induction sts with
  | nil => intro body rest; simp [Requests.resolve_album]
  | cons s sts ih =>
    intro body rest
    simp [Requests.resolve_album, List.replicate_succ, ih body rest]

/-- Helper for C3: the submit loop sleeps 5 seconds for each transient
response (job-error payload, malformed JSON, non-200 status) and retries
without a ceiling. -/
lemma request_track_download_transient (ts : List Requests.SubmitHttp) :
    ∀ (td : TrackDownload) (rest : List Requests.SubmitHttp),
    (∀ x ∈ ts, Requests.isTransientSubmit x = true) →
    Requests.request_track_download (ts ++ .okJson (.ok td) :: rest) =
      some (td, List.replicate ts.length 5, ts.length + 1) := by
  induction ts with
  | nil => intro td rest _; simp [Requests.request_track_download]
  | cons x ts ih =>
    intro td rest hall
    have hx := hall x (List.mem_cons_self _ _)
    have hrec := ih td rest fun y hy => hall y (List.mem_cons_of_mem _ hy)
    cases x with
    | okJson r =>
      cases r with
      | ok td2 => simp [Requests.isTransientSubmit] at hx
      | error msg =>
        simp [Requests.request_track_download, hrec, List.replicate_succ]
    | badJson => simp [Requests.request_track_download, hrec, List.replicate_succ]
    | code st => simp [Requests.request_track_download, hrec, List.replicate_succ]

/-- Helper for C3: the poll loop sleeps 5 seconds for each non-200,
non-500 status and retries without a ceiling. -/
lemma track_download_status_transient (sts : List Nat) :
    ∀ (td : TrackDownloadStatus) (rest : List Requests.PollHttp),
    (∀ s ∈ sts, s ≠ 500) →
    Requests.track_download_status (sts.map .code ++ .ok td :: rest) =
      some (some td, List.replicate sts.length 5, sts.length + 1) := by
  induction sts with
  | nil => intro td rest _; simp [Requests.track_download_status]
  | cons s sts ih =>
    intro td rest hall
    have hs := hall s (List.mem_cons_self _ _)
    have hrec := ih td rest fun y hy => hall y (List.mem_cons_of_mem _ hy)
    simp [Requests.track_download_status, hs, hrec, List.replicate_succ]

/-- Helper for C3: the fetch loop sleeps 5 seconds for each non-200,
non-500 status and retries without a ceiling. -/
lemma download_track_transient (sts : List Nat) :
    ∀ (bytes : List Nat) (mime : String) (rest : List Requests.FetchHttp),
    (∀ s ∈ sts, s ≠ 500) →
    Requests.download_track (sts.map .code ++ .ok bytes mime :: rest) =
      some (some (bytes, mime), List.replicate sts.length 5, sts.length + 1) := by
  induction sts with
  | nil => intro bytes mime rest _; simp [Requests.download_track]
  | cons s sts ih =>
    intro bytes mime rest hall
    have hs := hall s (List.mem_cons_self _ _)
    have hrec := ih bytes mime rest fun y hy => hall y (List.mem_cons_of_mem _ hy)
    simp [Requests.download_track, hs, hrec, List.replicate_succ]

/-- Helper for C3: the cover loop performs no sleep at all while retrying
non-200, non-404 statuses without a ceiling. -/
lemma download_album_cover_no_delay (sts : List Nat) :
    ∀ (bytes : List Nat) (rest : List Requests.CoverHttp),
    (∀ s ∈ sts, s ≠ 404) →
    Requests.download_album_cover (sts.map .code ++ .ok bytes :: rest) =
      some (some bytes, [], sts.length + 1) := by
  induction sts with
  | nil => intro bytes rest _; simp [Requests.download_album_cover]
  | cons s sts ih =>
    intro bytes rest hall
    have hs := hall s (List.mem_cons_self _ _)
    have hrec := ih bytes rest fun y hy => hall y (List.mem_cons_of_mem _ hy)
    simp [Requests.download_album_cover, hs, hrec]

/-- C3 counterexample: the claim that every transient failure is followed
by a fixed nonzero delay before the reattempt is false at these concrete
inputs — the cover-asset loop reattempts a 503 with an empty sleep list
(two attempts, no delay), and the fetch loop reattempts a body-read error
on a 200 response with an empty sleep list. -/
theorem transient_delay_counterexample :
    Requests.download_album_cover [.code 503, .ok [7]] = some (some [7], [], 2) ∧
    Requests.download_track [.bodyErr "audio/flac", .ok [7] "audio/flac"] =
      some (some ([7], "audio/flac"), [], 2) := by
  exact ⟨rfl, rfl⟩

/-- C3 amended: transient failures of resolve, submit, and the non-200
statuses of poll and fetch are retried without a ceiling after a fixed
5-second delay each; the cover-asset retry loop and the body-read-error
retry on a 200 fetch response reattempt the same call immediately with no
delay. -/
theorem transient_retry_policy :
    (∀ (sts : List Nat) (body : String) (rest : List Requests.ResolveHttp),
      Requests.resolve_album (sts.map .code ++ .ok body :: rest)
          (List.replicate sts.length true) =
        some (some body, List.replicate sts.length 5, sts.length + 1)) ∧
    (∀ (ts : List Requests.SubmitHttp) (td : TrackDownload)
        (rest : List Requests.SubmitHttp),
      (∀ x ∈ ts, Requests.isTransientSubmit x = true) →
      Requests.request_track_download (ts ++ .okJson (.ok td) :: rest) =
        some (td, List.replicate ts.length 5, ts.length + 1)) ∧
    (∀ (sts : List Nat) (td : TrackDownloadStatus) (rest : List Requests.PollHttp),
      (∀ s ∈ sts, s ≠ 500) →
      Requests.track_download_status (sts.map .code ++ .ok td :: rest) =
        some (some td, List.replicate sts.length 5, sts.length + 1)) ∧
    (∀ (sts : List Nat) (bytes : List Nat) (mime : String)
        (rest : List Requests.FetchHttp),
      (∀ s ∈ sts, s ≠ 500) →
      Requests.download_track (sts.map .code ++ .ok bytes mime :: rest) =
        some (some (bytes, mime), List.replicate sts.length 5, sts.length + 1)) ∧
    (∀ (mime : String) (rest : List Requests.FetchHttp),
      Requests.download_track (.bodyErr mime :: rest) =
        (Requests.download_track rest).map fun r => (r.1, r.2.1, r.2.2 + 1)) ∧
    (∀ (sts : List Nat) (bytes : List Nat) (rest : List Requests.CoverHttp),
      (∀ s ∈ sts, s ≠ 404) →
      Requests.download_album_cover (sts.map .code ++ .ok bytes :: rest) =
        some (some bytes, [], sts.length + 1)) :=
  ⟨fun sts body rest => resolve_album_transient sts body rest,
   fun ts td rest h => request_track_download_transient ts td rest h,
   fun sts td rest h => track_download_status_transient sts td rest h,
   fun sts bytes mime rest h => download_track_transient sts bytes mime rest h,
   fun _ _ => rfl,
   fun sts bytes rest h => download_album_cover_no_delay sts bytes rest h⟩

/-- Witness for the amended C3 at concrete inputs: one transient failure
per operation, with one 5-second sleep where the source sleeps and none
where it does not. -/
theorem transient_retry_policy_witness :
    Requests.resolve_album [.code 503, .ok "b"] [true] = some (some "b", [5], 2) ∧
    Requests.request_track_download [.badJson, .okJson (.ok ⟨"h", "s"⟩)] =
      some (⟨"h", "s"⟩, [5], 2) ∧
    Requests.track_download_status [.code 404, .ok ⟨"st", "ms"⟩] =
      some (some ⟨"st", "ms"⟩, [5], 2) ∧
    Requests.download_track [.code 404, .ok [7] "audio/flac"] =
      some (some ([7], "audio/flac"), [5], 2) ∧
    Requests.download_track [.bodyErr "audio/flac", .ok [7] "audio/flac"] =
      ((Requests.download_track [.ok [7] "audio/flac"]).map
        fun r => (r.1, r.2.1, r.2.2 + 1)) ∧
    Requests.download_album_cover [.code 503, .ok [7]] = some (some [7], [], 2) := by
  obtain ⟨p1, p2, p3, p4, p5, p6⟩ := transient_retry_policy
  exact ⟨p1 [503] "b" [], p2 [.badJson] ⟨"h", "s"⟩ [] (by decide),
    p3 [404] ⟨"st", "ms"⟩ [] (by decide), p4 [404] [7] "audio/flac" [] (by decide),
    p5 "audio/flac" [.ok [7] "audio/flac"], p6 [503] [7] [] (by decide)⟩

/-- C4: a track whose service is Qobuz and whose descriptor carries no
producer list is skipped — the download makes no remote call (empty call
trace) and creates no file (the file system is returned unchanged); for
any other service, or when a producer list is present, the skip guard
does not fire and the download body runs. -/
theorem qobuz_track_without_producers_skipped :
    (∀ (fuel : Nat) (track : Track) (submits : List TrackDownload) (script : List Resp)
        (fileName : String → String) (fsys : List (String × List Nat)),
      track.producers = none →
      Downloaders.download_track fuel .qobuz track submits script fileName fsys =
        (some fsys, [])) ∧
    (∀ (fuel : Nat) (service : Service) (track : Track) (submits : List TrackDownload)
        (script : List Resp) (fileName : String → String)
        (fsys : List (String × List Nat)),
      service = .tidal ∨ (∃ ps, track.producers = some ps) →
      Downloaders.download_track fuel service track submits script fileName fsys =
        download_track_body fuel submits script fileName fsys) := by
  constructor
  · intro fuel track submits script fileName fsys hp
    simp [Downloaders.download_track, matchesQobuz, hp]
  · intro fuel service track submits script fileName fsys hother
    rcases hother with rfl | ⟨ps, hp⟩
    · simp [Downloaders.download_track, matchesQobuz]
    · simp [Downloaders.download_track, hp]

/-- Witness for C4 at concrete tracks: a Qobuz track without producers is
skipped with no calls and no file; a Tidal track and a Qobuz track with
producers fall through to the download body. -/
theorem qobuz_track_without_producers_skipped_witness :
    Downloaders.download_track 0 .qobuz ⟨"t", "u", [], none, "c", none⟩ [] []
        (fun e => "x." ++ e) [] = (some [], []) ∧
    Downloaders.download_track 0 .tidal ⟨"t", "u", [], none, "c", none⟩ [] []
        (fun e => "x." ++ e) [] =
      download_track_body 0 [] [] (fun e => "x." ++ e) [] ∧
    Downloaders.download_track 0 .qobuz ⟨"t", "u", [], some ["p"], "c", none⟩ [] []
        (fun e => "x." ++ e) [] =
      download_track_body 0 [] [] (fun e => "x." ++ e) [] := by
  obtain ⟨skip, noskip⟩ := qobuz_track_without_producers_skipped
  exact ⟨skip 0 ⟨"t", "u", [], none, "c", none⟩ [] [] (fun e => "x." ++ e) [] rfl,
    noskip 0 .tidal ⟨"t", "u", [], none, "c", none⟩ [] [] (fun e => "x." ++ e) []
      (Or.inl rfl),
    noskip 0 .qobuz ⟨"t", "u", [], some ["p"], "c", none⟩ [] [] (fun e => "x." ++ e) []
      (Or.inr ⟨["p"], rfl⟩)⟩

/-- C8: the declared content type `audio/flac` maps to the `flac`
extension, every other declared content type maps to the panic (`none`),
and a download whose fetched asset declares an unknown content type
aborts with no file written. -/
theorem unknown_content_type_aborts :
    fileExtensionOf "audio/flac" = some "flac" ∧
    (∀ mime : String, mime ≠ "audio/flac" → fileExtensionOf mime = none) ∧
    (∀ (f t : Nat) (track : Track) (fileName : String → String)
        (fsys : List (String × List Nat)) (h₀ : TrackDownload) (bytes : List Nat)
        (mm mime : String),
      mime ≠ "audio/flac" →
      Downloaders.download_track (f + 3) .tidal track [h₀]
          [.pollOk t ⟨"completed", mm⟩, .fetchOk bytes mime] fileName fsys =
        (none, [.submit, .poll h₀, .fetch h₀])) := by
  refine ⟨by simp [fileExtensionOf], fun mime hm => by simp [fileExtensionOf, hm], ?_⟩
  intro f t track fileName fsys h₀ bytes mm mime hm
  have e : poll_transition h₀ none t ⟨"completed", mm⟩ = .fetching h₀ := by
    simp [poll_transition, isNewPair]
  have E : run (f + 3) [h₀] [.pollOk t ⟨"completed", mm⟩, .fetchOk bytes mime]
        .submitting = (some (bytes, mime), [.submit, .poll h₀, .fetch h₀]) := by
    rw [show f + 3 = f + 2 + 1 from rfl, run_submitting_cons,
      show f + 2 = f + 1 + 1 from rfl, run_polling_pollOk, e, run_fetching_fetchOk]
  simp [Downloaders.download_track, matchesQobuz, download_track_body, E,
    fileExtensionOf, hm]

/-- Witness for C8 at a concrete download declaring `audio/mpeg`: the
track aborts with no file. -/
theorem unknown_content_type_aborts_witness :
    fileExtensionOf "audio/flac" = some "flac" ∧
    fileExtensionOf "audio/mpeg" = none ∧
    Downloaders.download_track 3 .tidal ⟨"t", "u", [], none, "c", none⟩
        [⟨"h0", "s"⟩] [.pollOk 0 ⟨"completed", "m"⟩, .fetchOk [7] "audio/mpeg"]
        (fun e => "x." ++ e) [] =
      (none, [.submit, .poll ⟨"h0", "s"⟩, .fetch ⟨"h0", "s"⟩]) := by
  obtain ⟨flacOk, unknownNone, aborts⟩ := unknown_content_type_aborts
  exact ⟨flacOk, unknownNone "audio/mpeg" (by decide),
    aborts 0 0 ⟨"t", "u", [], none, "c", none⟩ (fun e => "x." ++ e) [] ⟨"h0", "s"⟩
      [7] "m" "audio/mpeg" (by decide)⟩

/-- C9: both output writers use create-new semantics — creating a file
whose name already exists in the album directory fails (the source then
panics, modelled as `none`) instead of overwriting, for the per-track
audio file and for the album cover alike; a fresh name appends the new
file. -/
theorem output_files_never_overwritten :
    (∀ (fsys : List (String × List Nat)) (name : String) (bytes : List Nat),
      (fsys.map Prod.fst).contains name = true → create_new fsys name bytes = none) ∧
    (∀ (fsys : List (String × List Nat)) (name : String) (bytes : List Nat),
      (fsys.map Prod.fst).contains name = false →
      create_new fsys name bytes = some (fsys ++ [(name, bytes)])) ∧
    (∀ (f t : Nat) (track : Track) (fileName : String → String)
        (fsys : List (String × List Nat)) (h₀ : TrackDownload) (bytes : List Nat)
        (mm : String),
      (fsys.map Prod.fst).contains (fileName "flac") = true →
      Downloaders.download_track (f + 3) .tidal track [h₀]
          [.pollOk t ⟨"completed", mm⟩, .fetchOk bytes "audio/flac"] fileName fsys =
        (none, [.submit, .poll h₀, .fetch h₀])) ∧
    (∀ (url : List Char) (bytes : List Nat) (fsys : List (String × List Nat)),
      (fsys.map Prod.fst).contains "cover.jpg" = true →
      Downloaders.download_album_cover .tidal url [.ok bytes] fsys = none) ∧
    (∀ (url : List Char) (bytes : List Nat) (fsys : List (String × List Nat)),
      (fsys.map Prod.fst).contains "cover.jpg" = false →
      Downloaders.download_album_cover .tidal url [.ok bytes] fsys =
        some (fsys ++ [("cover.jpg", bytes)])) := by
  refine ⟨?_, ?_, ?_, ?_, ?_⟩
  · intro fsys name bytes hc
    simp only [create_new]
    rw [hc]
    simp
  · intro fsys name bytes hc
    simp only [create_new]
    rw [hc]
    simp
  · intro f t track fileName fsys h₀ bytes mm hc
    have e : poll_transition h₀ none t ⟨"completed", mm⟩ = .fetching h₀ := by
      simp [poll_transition, isNewPair]
    have E : run (f + 3) [h₀] [.pollOk t ⟨"completed", mm⟩, .fetchOk bytes "audio/flac"]
          .submitting = (some (bytes, "audio/flac"), [.submit, .poll h₀, .fetch h₀]) := by
      rw [show f + 3 = f + 2 + 1 from rfl, run_submitting_cons,
        show f + 2 = f + 1 + 1 from rfl, run_polling_pollOk, e, run_fetching_fetchOk]
    simp only [Downloaders.download_track, matchesQobuz, download_track_body, E,
      fileExtensionOf, create_new, Bool.false_and, Bool.if_false_left, if_true,
      Bool.false_eq_true, if_false]
    rw [hc]
    simp
  · intro url bytes fsys hc
    simp only [Downloaders.download_album_cover, rewrite_cover_url,
      Requests.download_album_cover, create_new]
    rw [hc]
    simp
  · intro url bytes fsys hc
    simp only [Downloaders.download_album_cover, rewrite_cover_url,
      Requests.download_album_cover, create_new]
    rw [hc]
    simp

/-- Witness for C9 at concrete file systems: writing `x.flac` or
`cover.jpg` over an existing file of the same name aborts, and writing
into an empty directory appends the file. -/
theorem output_files_never_overwritten_witness :
    create_new [("x.flac", [1])] "x.flac" [2] = none ∧
    create_new [] "x.flac" [2] = some [("x.flac", [2])] ∧
    Downloaders.download_track 3 .tidal ⟨"t", "u", [], none, "c", none⟩
        [⟨"h0", "s"⟩] [.pollOk 0 ⟨"completed", "m"⟩, .fetchOk [7] "audio/flac"]
        (fun e => "x." ++ e) [("x.flac", [1])] =
      (none, [.submit, .poll ⟨"h0", "s"⟩, .fetch ⟨"h0", "s"⟩]) ∧
    Downloaders.download_album_cover .tidal ['u'] [.ok [7]] [("cover.jpg", [1])] =
      none ∧
    Downloaders.download_album_cover .tidal ['u'] [.ok [7]] [] =
      some [("cover.jpg", [7])] := by
  obtain ⟨clash, fresh, trackClash, coverClash, coverFresh⟩ :=
    output_files_never_overwritten
  exact ⟨clash [("x.flac", [1])] "x.flac" [2] (by decide),
    fresh [] "x.flac" [2] (by decide),
    trackClash 0 0 ⟨"t", "u", [], none, "c", none⟩ (fun e => "x." ++ e)
      [("x.flac", [1])] ⟨"h0", "s"⟩ [7] "m" (by decide),
    coverClash ['u'] [7] [("cover.jpg", [1])] (by decide),
    coverFresh ['u'] [7] [] (by decide)⟩

/-- Helper for C10: a list without underscores has no last underscore. -/
lemma lastUnderscoreIdx_eq_none (l : List Char) (h : '_' ∉ l) :
    lastUnderscoreIdx l = none := by
  induction l with
  | nil => rfl
  | cons c rest ih =>
    have hc : c ≠ '_' := fun hc => h (hc ▸ List.mem_cons_self _ _)
    have hr : '_' ∉ rest := fun hr => h (List.mem_cons_of_mem _ hr)
    simp [lastUnderscoreIdx, ih hr, hc]

/-- Helper for C10: the last underscore of `pre ++ '_' :: mid` with no
underscore in `mid` sits at index `pre.length`. -/
lemma lastUnderscoreIdx_append (pre mid : List Char) (h : '_' ∉ mid) :
    lastUnderscoreIdx (pre ++ '_' :: mid) = some pre.length := by
  induction pre with
  | nil => simp [lastUnderscoreIdx, lastUnderscoreIdx_eq_none mid h]
  | cons c pre ih => simp [lastUnderscoreIdx, ih]

/-- Helper for C10: stripping a suffix that is literally appended
succeeds and returns the stem. -/
lemma dropSuffixL_append (xs s : List Char) : dropSuffixL (xs ++ s) s = some xs := by
  simp [dropSuffixL, List.drop_left, List.take_left]

/-- C10: Tidal artwork URLs are fetched unchanged; a Qobuz artwork URL of
the shape `pre ++ "_" ++ mid ++ ".jpg"` with no later underscore is
rewritten to `pre ++ "_" ++ "org.jpg"` (everything after the last
underscore replaced); and the rewrite panics (modelled `none`) when the
Qobuz URL does not end in `.jpg` or has no underscore before that
suffix. -/
theorem cover_url_rewrite :
    (∀ url : List Char, rewrite_cover_url .tidal url = some url) ∧
    (∀ pre mid : List Char, '_' ∉ mid →
      rewrite_cover_url .qobuz (pre ++ '_' :: (mid ++ ".jpg".toList)) =
        some (pre ++ '_' :: "org.jpg".toList)) ∧
    (∀ url : List Char, ¬ ".jpg".toList <:+ url →
      rewrite_cover_url .qobuz url = none) ∧
    (∀ stem : List Char, '_' ∉ stem →
      rewrite_cover_url .qobuz (stem ++ ".jpg".toList) = none) := by
  refine ⟨fun url => rfl, ?_, ?_, ?_⟩
  · intro pre mid h
    have hmid : pre ++ '_' :: (mid ++ ".jpg".toList) =
        (pre ++ '_' :: mid) ++ ".jpg".toList := by simp
    simp only [rewrite_cover_url, hmid, dropSuffixL_append,
      lastUnderscoreIdx_append _ _ h]
    have hsplit : (pre ++ '_' :: mid) ++ ".jpg".toList =
        (pre ++ ['_']) ++ (mid ++ ".jpg".toList) := by simp
    rw [hsplit, List.take_left' (by simp)]
    simp
  · intro url hsuf
    have hdrop : dropSuffixL url ".jpg".toList = none := by
      unfold dropSuffixL
      rw [if_neg]
      intro hEq
      exact hsuf (List.suffix_iff_eq_drop.mpr hEq.symm)
    simp only [rewrite_cover_url]
    rw [hdrop]
  · intro stem h
    simp only [rewrite_cover_url, dropSuffixL_append,
      lastUnderscoreIdx_eq_none stem h]

/-- Witness for C10 at concrete URLs: a Tidal URL is unchanged, the Qobuz
URL `a_b.jpg` becomes `a_org.jpg`, and the Qobuz URLs `a_b.png` (no
`.jpg` suffix) and `ab.jpg` (no underscore) panic. -/
theorem cover_url_rewrite_witness :
    rewrite_cover_url .tidal "a_b.png".toList = some "a_b.png".toList ∧
    rewrite_cover_url .qobuz "a_b.jpg".toList = some "a_org.jpg".toList ∧
    rewrite_cover_url .qobuz "a_b.png".toList = none ∧
    rewrite_cover_url .qobuz "ab.jpg".toList = none := by
  obtain ⟨tidalId, qobuzRw, noJpg, noUnderscore⟩ := cover_url_rewrite
  refine ⟨tidalId "a_b.png".toList, ?_, ?_, ?_⟩
  · have := qobuzRw ['a'] ['b'] (by decide)
    simpa using this
  · exact noJpg "a_b.png".toList (by decide)
  · have := noUnderscore ['a', 'b'] (by decide)
    simpa using this

/-- C6 counterexample: when track downloading is disabled by
configuration (`--skip-tracks`), no track workers are spawned at all, so
the spawned count is not `min(track_workers, tracks_len)` for a
one-track album with one configured worker. -/
theorem track_worker_spawn_counterexample :
    (Downloaders.spawned_track_workers true 1 1).length = 0 ∧
    ¬ (Downloaders.spawned_track_workers true 1 1).length = min 1 1 := by
  decide

/-- C6 amended: with a non-empty URL list exactly
`min(album_workers, urls_len)` album workers are spawned, and, when track
downloading is enabled, exactly `min(track_workers, tracks_len)` track
workers are spawned per album — with track downloading disabled, none
are. -/
theorem worker_spawn_counts (c n t m : Nat) (_hn : 0 < n) (_hm : 0 < m) :
    (Main.spawned_album_workers c n).length = min c n ∧
    (Downloaders.spawned_track_workers false t m).length = min t m ∧
    (Downloaders.spawned_track_workers true t m).length = 0 := by
  refine ⟨?_, ?_, ?_⟩ <;>
    simp [Main.spawned_album_workers, Downloaders.spawned_track_workers]

/-- Witness for the amended C6 at concrete counts: 5 albums with 2
configured album workers spawn 2; 4 tracks with 3 configured track
workers spawn 3 when enabled and 0 when disabled. -/
theorem worker_spawn_counts_witness :
    (Main.spawned_album_workers 2 5).length = min 2 5 ∧
    (Downloaders.spawned_track_workers false 3 4).length = min 3 4 ∧
    (Downloaders.spawned_track_workers true 3 4).length = 0 :=
  worker_spawn_counts 2 5 3 4 (by decide) (by decide)

/-- C7: during album resolution, a 200 body containing a known
service-side error phrase is transient — with cancellation requested the
resolution aborts for the album, otherwise a 5-second delay elapses and
the resolve call is reissued — while a body containing no phrase ends the
retry loop and is the resolved page. -/
theorem resolve_error_phrase_handling :
    (∀ (html e : String) (rest : List (ResolveOutcome × Bool)),
      findErrorPhrase html = some e →
      resolve_loop ((.page html, false) :: rest) = some (none, [])) ∧
    (∀ (html e : String) (rest : List (ResolveOutcome × Bool)),
      findErrorPhrase html = some e →
      resolve_loop ((.page html, true) :: rest) =
        (resolve_loop rest).map fun r => (r.1, 5 :: r.2)) ∧
    (∀ (html : String) (b : Bool) (rest : List (ResolveOutcome × Bool)),
      findErrorPhrase html = none →
      resolve_loop ((.page html, b) :: rest) = some (some html, [])) := by
  refine ⟨?_, ?_, ?_⟩
  · intro html e rest hfind
    simp only [resolve_loop]
    rw [hfind]
    simp
  · intro html e rest hfind
    simp only [resolve_loop]
    rw [hfind]
    simp
  · intro html b rest hfind
    simp only [resolve_loop]
    rw [hfind]

/-- Witness for C7 at a concrete body equal to one of the error phrases:
cancelled resolution aborts, running resolution sleeps 5 seconds and
retries (here succeeding on the retry), and an error-free body resolves
at once. -/
theorem resolve_error_phrase_handling_witness :
    resolve_loop
        [(.page "An error occured trying to process your request.", false)] =
      some (none, []) ∧
    resolve_loop
        [(.page "An error occured trying to process your request.", true),
          (.page "x", true)] =
      some (some "x", [5]) ∧
    resolve_loop [(.page "x", true)] = some (some "x", []) := by
  obtain ⟨abortC, retryC, passC⟩ := resolve_error_phrase_handling
  have hfind : findErrorPhrase "An error occured trying to process your request." =
      some "An error occured trying to process your request." := by decide
  have hx : findErrorPhrase "x" = none := by decide
  refine ⟨abortC _ _ [] hfind, ?_, passC "x" true [] hx⟩
  rw [retryC _ _ [(.page "x", true)] hfind, passC "x" true [] hx]
  rfl

/-- C5: the cancellation flag starts true (for any interrupt instant
after start-up), turns false at most once and never resets; an album
worker that reads a false flag pops nothing from that moment on; and the
track worker — whose loop reads no flag at all — drains its whole queue
whenever it does not die on a process-fatal panic. -/
theorem cancellation_flag_cooperative :
    (∀ i : Nat, 0 < i → flagAt (some i) 0 = true) ∧
    (∀ (interrupt : Option Nat) (t t2 : Nat), t ≤ t2 →
      flagAt interrupt t = false → flagAt interrupt t2 = false) ∧
    (∀ (interrupt : Option Nat) (t : Nat) (queue : List String),
      flagAt interrupt t = false →
      run_album_worker (flagAt interrupt) t queue = []) ∧
    (∀ (fuel : Nat) (service : Service) (env : Nat → TrackEnv) (n : Nat)
        (queue : List (Option Nat × Track)) (fsys : List (String × List Nat)),
      (run_track_worker fuel service env n queue fsys).2.isSome = true →
      (run_track_worker fuel service env n queue fsys).1 = queue) := by
  refine ⟨?_, ?_, ?_, ?_⟩
  · intro i hi
    simp [flagAt, hi]
  · intro interrupt t t2 hle hf
    cases interrupt with
    | none => simp [flagAt] at hf
    | some i =>
      simp only [flagAt, decide_eq_false_iff_not] at hf ⊢
      omega
  · intro interrupt t queue hf
    cases queue with
    | nil => rfl
    | cons url rest => simp [run_album_worker, hf]
  · intro fuel service env n queue fsys
    induction queue generalizing n fsys with
    | nil => intro _; rfl
    | cons item rest ih =>
      intro hs
      rcases hd : Downloaders.download_track fuel service item.2 (env n).submits
          (env n).script (env n).fileName fsys with ⟨res, tr⟩
      rcases res with _ | fs2
      · simp [run_track_worker, hd] at hs
      · simp only [run_track_worker, hd] at hs ⊢
        rw [ih (n + 1) fs2 hs]

/-- Witness for C5 at concrete instants and queues: the flag interrupted
at instant 3 is true at 0 and false from 5 on, a worker reading it at 5
pops nothing, and a one-track queue with a successful script is drained
in full. -/
theorem cancellation_flag_cooperative_witness :
    flagAt (some 3) 0 = true ∧
    flagAt (some 3) 9 = false ∧
    run_album_worker (flagAt (some 3)) 5 ["u"] = [] ∧
    (run_track_worker 3 .tidal
        (fun _ => ⟨[⟨"h0", "s"⟩], [.pollOk 0 ⟨"completed", "m"⟩, .fetchOk [7] "audio/flac"],
          fun e => "x." ++ e⟩)
        0 [(some 1, ⟨"t", "u", [], none, "c", none⟩)] []).1 =
      [(some 1, ⟨"t", "u", [], none, "c", none⟩)] := by
  obtain ⟨hstart, hmono, halbum, htrack⟩ := cancellation_flag_cooperative
  exact ⟨hstart 3 (by decide), hmono (some 3) 5 9 (by decide) (by decide),
    halbum (some 3) 5 ["u"] (by decide),
    htrack 3 .tidal
      (fun _ => ⟨[⟨"h0", "s"⟩], [.pollOk 0 ⟨"completed", "m"⟩, .fetchOk [7] "audio/flac"],
        fun e => "x." ++ e⟩)
      0 [(some 1, ⟨"t", "u", [], none, "c", none⟩)] [] (by decide)⟩
